import Mathlib

/-!
# Verification of the control-plane orchestration core

A shallow embedding of the execution store (`storage` package: execution
rows, `UpdateExecutionRecord`, the stale-execution reaper
`MarkStaleExecutions`), the health monitor (`checkAgentHealth`), the
presence manager (`Touch` / `checkExpirations`) and the dashboard median
(`computeMedian`), together with theorems settling the stated properties.

Conventions of the embedding:
* machine time is modelled as `Int` milliseconds;
* the SQL `executions` table is a `List Execution` of rows; a SQL `UPDATE
  ... WHERE c` maps every row, rewriting exactly the rows satisfying `c`;
  `QueryRow` is `List.find?`; `sql.ErrNoRows` surfaces as `none`;
* fallible Go functions return `Except String`; a rolled-back transaction
  leaves the store component unchanged;
* the in-memory maps of the health monitor and the presence manager are
  association lists `List (String × _)`; per-entry logic is a function of
  the single entry, so Go's nondeterministic map iteration order does not
  affect any per-entry statement proved below.
-/

/-! ## Execution rows (pkg/types and the storage package) -/

/-- The execution status values of the data model
(pending/queued/running/succeeded/failed/cancelled/timeout). -/
inductive ExecStatus where
  | pending
  | queued
  | running
  | succeeded
  | failed
  | cancelled
  | timeout
deriving DecidableEq

/-- The statuses matched by the reaper's SQL predicate
`status IN ('running', 'pending', 'queued')`. -/
def ExecStatus.isReapable : ExecStatus → Bool
  | .running => true
  | .pending => true
  | .queued => true
  | _ => false

/-- Terminal statuses: succeeded, failed, cancelled, timeout. -/
def ExecStatus.isTerminal : ExecStatus → Bool
  | .succeeded => true
  | .failed => true
  | .cancelled => true
  | .timeout => true
  | _ => false

/-- One row of the `executions` table, with the columns scanned by
`scanExecution` (payloads kept abstract as strings, times as `Int`
milliseconds). -/
structure Execution where
  executionId : String
  runId : String
  parentExecutionId : Option String
  agentNodeId : String
  reasonerId : String
  nodeId : String
  status : ExecStatus
  inputPayload : Option String
  resultPayload : Option String
  errorMessage : Option String
  inputUri : Option String
  resultUri : Option String
  sessionId : Option String
  actorId : Option String
  startedAt : Int
  completedAt : Option Int
  durationMs : Option Int
  createdAt : Int
  updatedAt : Int
deriving DecidableEq

/-- `QueryRowContext ... WHERE execution_id = ?` followed by
`scanExecution`: the first row with the given id, `none` on
`sql.ErrNoRows`. -/
def findExecution (s : List Execution) (executionId : String) : Option Execution :=
  s.find? (fun e => e.executionId = executionId)

/-- `UpdateExecutionRecord` (storage package): reads the row inside a
transaction, applies the caller-supplied mutator to it (`none` when the
row does not exist), and
* on mutator error rolls back (store unchanged) and returns the error;
* on a `nil` mutator result commits without issuing an UPDATE and
  returns the row as read;
* otherwise stamps `updatedAt` and issues
  `UPDATE executions SET ... WHERE execution_id = ?` with the mutated
  row's id, which rewrites every column except `execution_id` and
  `created_at` on the matching rows, and returns the mutated row.
The first component is the resulting store, the second the Go return
value. -/
def UpdateExecutionRecord (s : List Execution) (executionId : String)
    (updater : Option Execution → Except String (Option Execution)) (now : Int) :
    List Execution × Except String (Option Execution) :=
  match updater (findExecution s executionId) with
  | .error msg => (s, .error msg)
  | .ok none => (s, .ok (findExecution s executionId))
  | .ok (some upd) =>
      (s.map (fun r =>
          if r.executionId = upd.executionId then
            { upd with updatedAt := now, createdAt := r.createdAt }
          else r),
       .ok (some { upd with updatedAt := now }))

/-! ## The stale-execution reaper (`MarkStaleExecutions`) -/

/-- The reaper's SELECT predicate:
`status IN ('running','pending','queued') AND started_at <= cutoff`. -/
def staleCandidate (cutoff : Int) (e : Execution) : Bool :=
  e.status.isReapable && decide (e.startedAt ≤ cutoff)

/-- The reaper's SELECT: filter by `staleCandidate`, `ORDER BY started_at
ASC`, `LIMIT`, capturing `(execution_id, started_at)` pairs. -/
def selectStale (s : List Execution) (cutoff : Int) (limit : Nat) :
    List (String × Int) :=
  (((s.filter (staleCandidate cutoff)).map (fun e => (e.executionId, e.startedAt))).mergeSort
      (fun a b => decide (a.2 ≤ b.2))).take limit

/-- The column assignments of the reaper's UPDATE: `status = 'timeout'`,
`error_message = 'execution timed out'`, `completed_at = now`,
`duration_ms = max 0 (now - startedAt)` (the Go code clamps the negative
case twice, once on the duration and once on the milliseconds),
`updated_at = now`, where `startedAt` is the value captured at SELECT
time. -/
def reapedRow (e : Execution) (now startedAt : Int) : Execution :=
  { e with status := .timeout,
           errorMessage := some "execution timed out",
           completedAt := some now,
           durationMs := some (max 0 (now - startedAt)),
           updatedAt := now }

/-- One prepared-statement execution of the reaper:
`UPDATE executions SET <reapedRow columns> WHERE execution_id = ? AND
status IN ('running','pending','queued')`. Also reports whether any row
was affected (`rowsAffected > 0`). -/
def timeoutOne (now : Int) (s : List Execution) (rec : String × Int) :
    List Execution × Bool :=
  (s.map (fun e =>
      if e.executionId = rec.1 && e.status.isReapable then reapedRow e now rec.2
      else e),
   s.any (fun e => e.executionId = rec.1 && e.status.isReapable))

/-- One iteration of the reaper's update loop: run the guarded UPDATE
for one captured record and bump the counter when a row was affected. -/
def reapStep (now : Int) (acc : List Execution × Nat) (rec : String × Int) :
    List Execution × Nat :=
  ((timeoutOne now acc.1 rec).1,
   acc.2 + (if (timeoutOne now acc.1 rec).2 then 1 else 0))

/-- The reaper's update loop over the captured stale records, inside one
transaction: the fold of `reapStep` with the `updated` counter starting
at 0. The store it runs against is a parameter, so statements about it
also cover a store that changed between SELECT and UPDATE (a concurrent
completion). -/
def applyTimeouts (s : List Execution) (stale : List (String × Int)) (now : Int) :
    List Execution × Nat :=
  List.foldl (reapStep now) (s, 0) stale

/-- `MarkStaleExecutions`: returns `(store, 0)` for a non-positive limit,
otherwise selects stale executions with `cutoff = now - staleAfter` and
applies the guarded timeout update to each inside one transaction. -/
def MarkStaleExecutions (s : List Execution) (now staleAfter limit : Int) :
    List Execution × Nat :=
  if limit ≤ 0 then (s, 0)
  else applyTimeouts s (selectStale s (now - staleAfter) limit.toNat) now

/-! ## Health monitor (`checkAgentHealth`) -/

/-- Coarse health status of a monitored agent. -/
inductive HealthStatus where
  | unknown
  | active
  | inactive
deriving DecidableEq

/-- Agent lifecycle state as pushed to the status manager. -/
inductive AgentState where
  | active
  | inactive
deriving DecidableEq

/-- The health monitor's per-agent registry entry (`ActiveAgent`),
restricted to the fields `checkAgentHealth` reads and writes. -/
structure ActiveAgent where
  lastStatus : HealthStatus
  lastChecked : Int
deriving DecidableEq

/-- The payload of `statusManager.UpdateAgentStatus` as built by
`checkAgentHealth` (state plus health score). -/
structure AgentStatusUpdate where
  state : AgentState
  healthScore : Nat
deriving DecidableEq

/-- Probe outcome mapping: a failed HTTP call (`none`) is inactive; a
response is active exactly when its status string is "running". -/
def probeStatus : Option String → HealthStatus
  | none => .inactive
  | some s => if s = "running" then .active else .inactive

/-- The `switch newStatus` of `checkAgentHealth` assigning the agent
state and health score pushed downstream: active ↦ (active, 75),
inactive ↦ (inactive, 0), default ↦ (inactive, 0). -/
def stateFor : HealthStatus → AgentState × Nat
  | .active => (AgentState.active, 75)
  | .inactive => (AgentState.inactive, 0)
  | .unknown => (AgentState.inactive, 0)

/-- `checkAgentHealth` for a registered agent, on the unified
status-manager path: maps the probe outcome, updates `lastChecked` and
`lastStatus`, and — only when the status changed — runs the debounce
logic and builds the status update to push. Returns the updated registry
entry and the pushed update (`none` when nothing is pushed). Mirrors the
source order: `lastStatus` is overwritten with the new status before the
debounce branch compares it with inactive, and `lastChecked` is set to
`now` before the branch measures the elapsed window. -/
def checkAgentHealth (agent : ActiveAgent) (probe : Option String) (now : Int) :
    ActiveAgent × Option AgentStatusUpdate :=
  let newStatus := probeStatus probe
  let a1 : ActiveAgent := { agent with lastChecked := now }
  let statusChanged := a1.lastStatus ≠ newStatus
  let a2 : ActiveAgent := { a1 with lastStatus := newStatus }
  if statusChanged then
    if newStatus = HealthStatus.inactive then
      ({ a2 with lastChecked := now },
       some { state := (stateFor newStatus).1, healthScore := (stateFor newStatus).2 })
    else if newStatus = HealthStatus.active ∧ a2.lastStatus = HealthStatus.inactive then
      if now - a2.lastChecked < 30000 then
        (a2, none)
      else
        (a2, some { state := (stateFor newStatus).1, healthScore := (stateFor newStatus).2 })
    else
      (a2, some { state := (stateFor newStatus).1, healthScore := (stateFor newStatus).2 })
  else (a2, none)

/-! ## Presence manager (`Touch`, `checkExpirations`) -/

/-- A presence lease (`presenceLease`): last touch time, last soft-expiry
time, and the offline mark. -/
structure PresenceLease where
  lastSeen : Int
  lastExpired : Int
  markedOffline : Bool
deriving DecidableEq

/-- `Touch`: create the lease if absent (zero-valued fields), then set
`lastSeen` to the touch time and reset `markedOffline` to false. -/
def Touch (leases : List (String × PresenceLease)) (nodeId : String) (seenAt : Int) :
    List (String × PresenceLease) :=
  if leases.any (fun p => p.1 = nodeId) then
    leases.map (fun p =>
      if p.1 = nodeId then (p.1, { p.2 with lastSeen := seenAt, markedOffline := false })
      else p)
  else
    leases ++ [(nodeId, { lastSeen := seenAt, lastExpired := 0, markedOffline := false })]

/-- The per-lease body of `checkExpirations`: a lease untouched for at
least `heartbeatTTL` is soft-expired (marked offline, `lastExpired :=
now`, reported for notification) when not yet marked; an already marked
lease is deleted when `hardEvictTTL > 0` and `now - lastSeen ≥
hardEvictTTL`, and otherwise left alone. Returns the surviving lease
(`none` = deleted) and whether this sweep reports the node as freshly
expired. -/
def sweepLease (now heartbeatTTL hardEvictTTL : Int) (l : PresenceLease) :
    Option PresenceLease × Bool :=
  if heartbeatTTL ≤ now - l.lastSeen then
    if l.markedOffline = false then
      (some { l with markedOffline := true, lastExpired := now }, true)
    else if 0 < hardEvictTTL ∧ hardEvictTTL ≤ now - l.lastSeen then
      (none, false)
    else
      (some l, false)
  else
    (some l, false)

/-- `checkExpirations`: sweep every lease; the first component is the
surviving lease map, the second the list of freshly soft-expired node
ids, each of which triggers exactly one `markInactive` — one status
manager update to inactive. -/
def checkExpirations (leases : List (String × PresenceLease))
    (now heartbeatTTL hardEvictTTL : Int) :
    List (String × PresenceLease) × List String :=
  (leases.filterMap (fun p =>
      ((sweepLease now heartbeatTTL hardEvictTTL p.2).1).map (fun l => (p.1, l))),
   leases.filterMap (fun p =>
      if (sweepLease now heartbeatTTL hardEvictTTL p.2).2 then some p.1 else none))

/-- Look a lease up by node id. -/
def lookupLease (leases : List (String × PresenceLease)) (nodeId : String) :
    Option PresenceLease :=
  (leases.find? (fun p => p.1 = nodeId)).map Prod.snd

/-! ## Dashboard median (`computeMedian`) -/

/-- `computeMedian` (dashboard handler): 0 for an empty sample list;
otherwise sort ascending and return the middle element (odd count) or
the mean of the two middle elements (even count). The Go float result is
modelled exactly as a rational. -/
def computeMedian (values : List Int) : Rat :=
  if values.length = 0 then 0
  else
    let sorted := values.mergeSort
    let mid := values.length / 2
    if values.length % 2 = 1 then ((sorted.getD mid 0 : Int) : Rat)
    else (((sorted.getD (mid - 1) 0 : Int) : Rat) + ((sorted.getD mid 0 : Int) : Rat)) / 2

/-! ## Concrete fixtures used by witnesses and counterexamples -/

/-- A running execution row started at t = 0. -/
def execRow : Execution :=
  { executionId := "exec-1", runId := "run-1", parentExecutionId := none,
    agentNodeId := "agent-1", reasonerId := "reasoner-a", nodeId := "node-1",
    status := ExecStatus.running, inputPayload := some "in",
    resultPayload := none, errorMessage := none, inputUri := none,
    resultUri := none, sessionId := none, actorId := none, startedAt := 0,
    completedAt := none, durationMs := none, createdAt := 0, updatedAt := 0 }

/-- The same row after a normal successful completion at t = 10. -/
def execDone : Execution :=
  { execRow with status := ExecStatus.succeeded, completedAt := some 10,
                 durationMs := some 10, updatedAt := 10 }

/-- A mutator result that rewrites `execDone` to a different terminal
status. -/
def execDoneFailed : Execution := { execDone with status := ExecStatus.failed }

/-- A fresh, never-expired presence lease touched at t = 0. -/
def lease0 : PresenceLease := { lastSeen := 0, lastExpired := 0, markedOffline := false }

/-! ## Theorems about `UpdateExecutionRecord` -/

/-- C10: if the mutator passed to `UpdateExecutionRecord` returns a nil
execution with no error, the call is a pure no-op on the store: no
UPDATE is issued, the store is returned unchanged, and the function
returns the current row as read. -/
theorem updateExecutionRecord_nil_mutator_noop
    (s : List Execution) (executionId : String)
    (updater : Option Execution → Except String (Option Execution)) (now : Int)
    (h : updater (findExecution s executionId) = Except.ok none) :
    UpdateExecutionRecord s executionId updater now
      = (s, Except.ok (findExecution s executionId)) := by
  unfold UpdateExecutionRecord
  rw [h]

theorem updateExecutionRecord_nil_mutator_noop_witness :
    (fun _ => Except.ok none : Option Execution → Except String (Option Execution))
        (findExecution [execRow] "exec-1") = Except.ok none ∧
    UpdateExecutionRecord [execRow] "exec-1" (fun _ => Except.ok none) 5
      = ([execRow], Except.ok (findExecution [execRow] "exec-1")) :=
  ⟨rfl, updateExecutionRecord_nil_mutator_noop [execRow] "exec-1" (fun _ => Except.ok none) 5 rfl⟩

/-- C5 counterexample: with no row for the requested id, a call whose
mutator returns nil for the nil row SUCCEEDS (ok, no error), refuting
"fails (returns an error rather than succeeding)"; the store is
unchanged. -/
theorem updateExecutionRecord_missing_row_counterexample :
    findExecution [] "missing" = none ∧
    UpdateExecutionRecord [] "missing" (fun _ => Except.ok none) 5
      = ([], Except.ok none) :=
  ⟨rfl, rfl⟩

/-- C5 amended: on a store with no row for the requested id,
`UpdateExecutionRecord` hands `none` to the mutator and is transparent
to it: it errors exactly when the mutator errors, succeeds with an
unchanged store when the mutator returns nil, and otherwise issues the
UPDATE keyed on the id of the execution the mutator returned. The
function itself never rejects the missing row. -/
theorem updateExecutionRecord_missing_row_spec
    (s : List Execution) (executionId : String)
    (updater : Option Execution → Except String (Option Execution)) (now : Int)
    (hmiss : findExecution s executionId = none) :
    UpdateExecutionRecord s executionId updater now
      = (match updater none with
         | .error msg => (s, Except.error msg)
         | .ok none => (s, Except.ok none)
         | .ok (some upd) =>
             (s.map (fun r =>
                 if r.executionId = upd.executionId then
                   { upd with updatedAt := now, createdAt := r.createdAt }
                 else r),
              Except.ok (some { upd with updatedAt := now }))) := by
  unfold UpdateExecutionRecord
  rw [hmiss]

theorem updateExecutionRecord_missing_row_spec_witness :
    findExecution [execRow] "missing" = none ∧
    UpdateExecutionRecord [execRow] "missing" (fun _ => Except.ok none) 5
      = ([execRow], Except.ok none) :=
  ⟨rfl, updateExecutionRecord_missing_row_spec [execRow] "missing" (fun _ => Except.ok none) 5 rfl⟩

/-- C2 counterexample: a row whose stored status is the terminal value
`succeeded` is overwritten to the different terminal value `failed` by an
`UpdateExecutionRecord` call whose mutator returns that status — the
call neither no-ops nor rejects. -/
theorem updateExecutionRecord_terminal_overwrite :
    ExecStatus.succeeded.isTerminal = true ∧
    ExecStatus.failed.isTerminal = true ∧
    ExecStatus.succeeded ≠ ExecStatus.failed ∧
    execDone.status = ExecStatus.succeeded ∧
    (UpdateExecutionRecord [execDone] "exec-1"
        (fun _ => Except.ok (some execDoneFailed)) 20).1.map Execution.status
      = [ExecStatus.failed] :=
  ⟨rfl, rfl, by decide, rfl, rfl⟩

/-- C2 amended: `UpdateExecutionRecord` imposes no terminal-status guard:
whenever the mutator returns an execution, the call persists exactly that
execution (with `updatedAt` stamped and each matched row's `createdAt`
preserved) and returns it, whatever the stored status was — so a mutator
returning a different terminal status does overwrite a stored terminal
status, and at-most-one-terminal-transition is the callers' discipline,
not a property of this function. A mutator returning nil leaves the row
unchanged. -/
theorem updateExecutionRecord_persists_mutator
    (s : List Execution) (executionId : String)
    (updater : Option Execution → Except String (Option Execution)) (now : Int)
    (upd e : Execution) (i : Nat)
    (hu : updater (findExecution s executionId) = Except.ok (some upd))
    (he : s[i]? = some e) :
    (UpdateExecutionRecord s executionId updater now).2
        = Except.ok (some { upd with updatedAt := now }) ∧
    (UpdateExecutionRecord s executionId updater now).1[i]?
        = some (if e.executionId = upd.executionId then
                  { upd with updatedAt := now, createdAt := e.createdAt }
                else e) := by
  unfold UpdateExecutionRecord
  rw [hu]
  refine ⟨rfl, ?_⟩
  rw [List.getElem?_map, he]
  rfl

theorem updateExecutionRecord_persists_mutator_witness :
    (fun _ => Except.ok (some execDoneFailed) :
        Option Execution → Except String (Option Execution))
        (findExecution [execDone] "exec-1") = Except.ok (some execDoneFailed) ∧
    ([execDone][0]? = some execDone) ∧
    (UpdateExecutionRecord [execDone] "exec-1"
        (fun _ => Except.ok (some execDoneFailed)) 20).2
      = Except.ok (some { execDoneFailed with updatedAt := 20 }) ∧
    (UpdateExecutionRecord [execDone] "exec-1"
        (fun _ => Except.ok (some execDoneFailed)) 20).1[0]?
      = some (if execDone.executionId = execDoneFailed.executionId then
                { execDoneFailed with updatedAt := 20, createdAt := execDone.createdAt }
              else execDone) :=
  ⟨rfl, rfl,
   updateExecutionRecord_persists_mutator [execDone] "exec-1"
     (fun _ => Except.ok (some execDoneFailed)) 20 execDoneFailed execDone 0 rfl rfl⟩

/-! ## Theorems about the stale-execution reaper -/

theorem terminal_not_reapable (st : ExecStatus) (h : st.isTerminal = true) :
    st.isReapable = false := by
  cases st <;> simp_all [ExecStatus.isTerminal, ExecStatus.isReapable]

theorem reapedRow_terminal (e : Execution) (now startedAt : Int) :
    (reapedRow e now startedAt).status.isTerminal = true := rfl

theorem timeoutOne_getElem?_terminal (now : Int) (s : List Execution)
    (rec : String × Int) (i : Nat) (e : Execution)
    (he : s[i]? = some e) (ht : e.status.isTerminal = true) :
    (timeoutOne now s rec).1[i]? = some e := by
  unfold timeoutOne
  rw [List.getElem?_map, he]
  simp [terminal_not_reapable e.status ht]

theorem timeoutOne_getElem?_ne (now : Int) (s : List Execution)
    (rec : String × Int) (i : Nat) (e : Execution)
    (he : s[i]? = some e) (hne : e.executionId ≠ rec.1) :
    (timeoutOne now s rec).1[i]? = some e := by
  unfold timeoutOne
  rw [List.getElem?_map, he]
  simp [hne]

theorem timeoutOne_getElem?_hit (now : Int) (s : List Execution)
    (rec : String × Int) (i : Nat) (e : Execution)
    (he : s[i]? = some e) (hid : e.executionId = rec.1)
    (hr : e.status.isReapable = true) :
    (timeoutOne now s rec).1[i]? = some (reapedRow e now rec.2) := by
  unfold timeoutOne
  rw [List.getElem?_map, he]
  simp [hid, hr]

theorem foldl_reapStep_fst (now : Int) :
    ∀ (rest : List (String × Int)) (t : List Execution) (m : Nat),
      (List.foldl (reapStep now) (t, m) rest).1
        = (List.foldl (reapStep now) (t, 0) rest).1 := by
  intro rest
  induction rest with
  | nil => intro t m; rfl
  | cons rec rest ih =>
      intro t m
      rw [List.foldl_cons, List.foldl_cons]
      rw [show reapStep now (t, m) rec
            = ((timeoutOne now t rec).1, m + (if (timeoutOne now t rec).2 then 1 else 0)) from rfl,
          show reapStep now (t, 0) rec
            = ((timeoutOne now t rec).1, 0 + (if (timeoutOne now t rec).2 then 1 else 0)) from rfl]
      rw [ih _ (m + (if (timeoutOne now t rec).2 then 1 else 0)),
          ih _ (0 + (if (timeoutOne now t rec).2 then 1 else 0))]

theorem applyTimeouts_fst_cons (s : List Execution) (rec : String × Int)
    (rest : List (String × Int)) (now : Int) :
    (applyTimeouts s (rec :: rest) now).1
      = (applyTimeouts (timeoutOne now s rec).1 rest now).1 := by
  unfold applyTimeouts
  rw [List.foldl_cons]
  exact foldl_reapStep_fst now rest (timeoutOne now s rec).1 _

theorem applyTimeouts_getElem?_terminal :
    ∀ (stale : List (String × Int)) (s : List Execution) (i : Nat)
      (e : Execution) (now : Int),
      s[i]? = some e → e.status.isTerminal = true →
      (applyTimeouts s stale now).1[i]? = some e := by
  intro stale
  induction stale with
  | nil => intro s i e now he _; exact he
  | cons rec rest ih =>
      intro s i e now he ht
      rw [applyTimeouts_fst_cons]
      exact ih _ i e now (timeoutOne_getElem?_terminal now s rec i e he ht) ht

/-- C1: a reaper sweep never modifies an execution whose status is
terminal at update time: the timeout UPDATE is guarded by
`status IN ('running','pending','queued')`. Stated both for the update
loop run against an arbitrary store and captured-record list (covering a
row whose status became terminal between the reaper's SELECT and its
UPDATE, i.e. a race with normal completion) and for the full
`MarkStaleExecutions` sweep. -/
theorem reaper_preserves_terminal (s : List Execution)
    (now staleAfter limit : Int) (stale : List (String × Int))
    (i : Nat) (e : Execution)
    (he : s[i]? = some e) (ht : e.status.isTerminal = true) :
    (applyTimeouts s stale now).1[i]? = some e ∧
    (MarkStaleExecutions s now staleAfter limit).1[i]? = some e := by
  refine ⟨applyTimeouts_getElem?_terminal stale s i e now he ht, ?_⟩
  unfold MarkStaleExecutions
  split
  · exact he
  · exact applyTimeouts_getElem?_terminal _ s i e now he ht

theorem reaper_preserves_terminal_witness :
    ([execDone][0]? = some execDone) ∧
    execDone.status.isTerminal = true ∧
    (applyTimeouts [execDone] [("exec-1", 0)] 90000).1[0]? = some execDone ∧
    (MarkStaleExecutions [execDone] 90000 60000 100).1[0]? = some execDone := by
  refine ⟨rfl, rfl, ?_⟩
  exact reaper_preserves_terminal [execDone] 90000 60000 100 [("exec-1", 0)] 0 execDone rfl rfl

theorem selectStale_sound (s : List Execution) (cutoff : Int) (limit : Nat)
    (p : String × Int) (hp : p ∈ selectStale s cutoff limit) :
    ∃ e, e ∈ s ∧ e.executionId = p.1 ∧ e.startedAt = p.2 ∧
      e.status.isReapable = true ∧ e.startedAt ≤ cutoff := by
  unfold selectStale at hp
  have h2 := List.mem_mergeSort.1 (List.mem_of_mem_take hp)
  obtain ⟨e, he, hpe⟩ := List.mem_map.1 h2
  have h3 := List.mem_filter.1 he
  have h4 : e.status.isReapable = true ∧ e.startedAt ≤ cutoff := by
    simpa [staleCandidate] using h3.2
  exact ⟨e, h3.1, by rw [← hpe], by rw [← hpe], h4.1, h4.2⟩

theorem applyTimeouts_getElem?_notin :
    ∀ (stale : List (String × Int)) (s : List Execution) (i : Nat)
      (e : Execution) (now : Int),
      s[i]? = some e → e.executionId ∉ stale.map Prod.fst →
      (applyTimeouts s stale now).1[i]? = some e := by
  intro stale
  induction stale with
  | nil => intro s i e now he _; exact he
  | cons rec rest ih =>
      intro s i e now he hnot
      rw [List.map_cons] at hnot
      have hne : e.executionId ≠ rec.1 := fun h => hnot (h ▸ List.mem_cons_self _ _)
      have hrest : e.executionId ∉ rest.map Prod.fst :=
        fun h => hnot (List.mem_cons_of_mem _ h)
      rw [applyTimeouts_fst_cons]
      exact ih _ i e now (timeoutOne_getElem?_ne now s rec i e he hne) hrest

theorem applyTimeouts_getElem?_hit :
    ∀ (stale : List (String × Int)) (s : List Execution) (i : Nat)
      (e : Execution) (now : Int),
      s[i]? = some e → e.status.isReapable = true →
      (∀ p ∈ stale, p.1 = e.executionId → p.2 = e.startedAt) →
      e.executionId ∈ stale.map Prod.fst →
      (applyTimeouts s stale now).1[i]? = some (reapedRow e now e.startedAt) := by
  intro stale
  induction stale with
  | nil => intro s i e now _ _ _ hmem; simp at hmem
  | cons rec rest ih =>
      intro s i e now he hr hagree hmem
      by_cases hid : e.executionId = rec.1
      · have hst : rec.2 = e.startedAt := hagree rec (List.mem_cons_self _ _) hid.symm
        rw [applyTimeouts_fst_cons]
        have h1 : (timeoutOne now s rec).1[i]? = some (reapedRow e now rec.2) :=
          timeoutOne_getElem?_hit now s rec i e he hid hr
        rw [hst] at h1
        exact applyTimeouts_getElem?_terminal rest _ i _ now h1
          (reapedRow_terminal e now e.startedAt)
      · rw [List.map_cons] at hmem
        have hmem2 : e.executionId ∈ rest.map Prod.fst := by
          rcases List.mem_cons.1 hmem with h | h
          · exact absurd h hid
          · exact h
        rw [applyTimeouts_fst_cons]
        exact ih _ i e now (timeoutOne_getElem?_ne now s rec i e he hid) hr
          (fun p hp h => hagree p (List.mem_cons_of_mem _ hp) h) hmem2

/-- C7: a reaper sweep selects only captured records coming from rows
with status in running/pending/queued and `startedAt ≤ now -
staleAfter`, bounded by the row limit; assuming unique execution ids
(the data model's uniqueness of `executionId`), every row whose id was
selected is rewritten to `reapedRow` — status `timeout`, error message
"execution timed out", `completedAt = now`, `durationMs = max 0 (now -
startedAt)` — and every other row is untouched. The whole batch is one
`applyTimeouts` application, modelling the single transaction. -/
theorem markStale_spec (s : List Execution) (now staleAfter limit : Int)
    (i : Nat) (e : Execution)
    (hnodup : (s.map Execution.executionId).Nodup)
    (he : s[i]? = some e) :
    (selectStale s (now - staleAfter) limit.toNat).length ≤ limit.toNat ∧
    (e.executionId ∈ (selectStale s (now - staleAfter) limit.toNat).map Prod.fst →
       e.status.isReapable = true ∧ e.startedAt ≤ now - staleAfter ∧
       (MarkStaleExecutions s now staleAfter limit).1[i]?
         = some (reapedRow e now e.startedAt)) ∧
    (e.executionId ∉ (selectStale s (now - staleAfter) limit.toNat).map Prod.fst →
       (MarkStaleExecutions s now staleAfter limit).1[i]? = some e) := by
  have hmem_e : e ∈ s := List.getElem?_mem he
  refine ⟨List.length_take_le _ _, ?_, ?_⟩
  · intro hmem
    obtain ⟨p, hp, hpe⟩ := List.mem_map.1 hmem
    obtain ⟨r, hr_mem, hr_id, hr_st, hr_reap, hr_le⟩ :=
      selectStale_sound s (now - staleAfter) limit.toNat p hp
    have hre : r = e :=
      List.inj_on_of_nodup_map hnodup hr_mem hmem_e (by rw [hr_id, hpe])
    refine ⟨hre ▸ hr_reap, hre ▸ hr_le, ?_⟩
    unfold MarkStaleExecutions
    by_cases hlim : limit ≤ 0
    · exfalso
      rw [Int.toNat_of_nonpos hlim] at hmem
      simp [selectStale] at hmem
    · rw [if_neg hlim]
      refine applyTimeouts_getElem?_hit _ s i e now he (hre ▸ hr_reap) ?_ hmem
      intro q hq hq1
      obtain ⟨r2, hr2m, hr2id, hr2st, _, _⟩ :=
        selectStale_sound s (now - staleAfter) limit.toNat q hq
      have hr2e : r2 = e :=
        List.inj_on_of_nodup_map hnodup hr2m hmem_e (hr2id.trans hq1)
      rw [← hr2st, hr2e]
  · intro hnot
    unfold MarkStaleExecutions
    by_cases hlim : limit ≤ 0
    · rw [if_pos hlim]; exact he
    · rw [if_neg hlim]
      exact applyTimeouts_getElem?_notin _ s i e now he hnot

unseal List.merge List.mergeSort in
theorem markStale_spec_witness :
    (([execRow].map Execution.executionId).Nodup) ∧
    (execRow.executionId
        ∈ (selectStale [execRow] (90000 - 60000) (10 : Int).toNat).map Prod.fst) ∧
    (MarkStaleExecutions [execRow] 90000 60000 10).1[0]?
      = some (reapedRow execRow 90000 execRow.startedAt) :=
  ⟨by decide, by decide,
   ((markStale_spec [execRow] 90000 60000 10 0 execRow (by decide) rfl).2.1
      (by decide)).2.2⟩

/-! ## Theorems about the health monitor -/

theorem probeStatus_cases (probe : Option String) :
    probeStatus probe = HealthStatus.active ∨ probeStatus probe = HealthStatus.inactive := by
  cases probe with
  | none => exact Or.inr rfl
  | some s => by_cases h : s = "running" <;> simp [probeStatus, h]

/-- C3 fails on the code: an agent whose previous recorded status is
inactive (last check at t = 1000 ms) receives a successful "running"
probe 5 s later (t = 6000 ms), well inside the 30 s stability window —
and `checkAgentHealth` pushes the active update (state active, score 75)
anyway. The debounce branch is unreachable: the code overwrites
`LastStatus` with the new status before comparing it against inactive,
and resets `LastChecked` to now before measuring the window, exactly the
oscillation its own comments say it prevents. -/
theorem checkAgentHealth_debounce_ineffective :
    checkAgentHealth
        { lastStatus := HealthStatus.inactive, lastChecked := 1000 }
        (some "running") 6000
      = ({ lastStatus := HealthStatus.active, lastChecked := 6000 },
         some { state := AgentState.active, healthScore := 75 }) ∧
    (6000 : Int) - 1000 < 30000 := by
  exact ⟨rfl, by decide⟩

/-- C8: `checkAgentHealth` maps the probe outcome deterministically — a
failed probe (`none`) or a non-"running" response is inactive, pushed
with health score 0; a successful "running" response is active, pushed
with the fixed score 75 — and an update is pushed to the status manager
exactly when the mapped status differs from the previously recorded
status. -/
theorem checkAgentHealth_push_on_change
    (a : ActiveAgent) (probe : Option String) (now : Int)
    (str : String) (hstr : str ≠ "running") :
    (checkAgentHealth a probe now).2
      = (if a.lastStatus = probeStatus probe then none
         else if probeStatus probe = HealthStatus.active then
           some { state := AgentState.active, healthScore := 75 }
         else some { state := AgentState.inactive, healthScore := 0 }) ∧
    probeStatus none = HealthStatus.inactive ∧
    probeStatus (some "running") = HealthStatus.active ∧
    probeStatus (some str) = HealthStatus.inactive := by
  refine ⟨?_, rfl, rfl, by simp [probeStatus, hstr]⟩
  by_cases hch : a.lastStatus = probeStatus probe
  · simp [checkAgentHealth, hch]
  · rcases probeStatus_cases probe with hp | hp <;>
      rw [hp] at hch <;>
      simp [checkAgentHealth, hch, hp, stateFor]

theorem checkAgentHealth_push_on_change_witness :
    ("stopped" : String) ≠ "running" ∧
    ((checkAgentHealth { lastStatus := HealthStatus.inactive, lastChecked := 0 }
        (some "stopped") 10).2
      = (if HealthStatus.inactive = probeStatus (some "stopped") then none
         else if probeStatus (some "stopped") = HealthStatus.active then
           some { state := AgentState.active, healthScore := 75 }
         else some { state := AgentState.inactive, healthScore := 0 }) ∧
     probeStatus none = HealthStatus.inactive ∧
     probeStatus (some "running") = HealthStatus.active ∧
     probeStatus (some "stopped") = HealthStatus.inactive) :=
  ⟨by decide,
   checkAgentHealth_push_on_change
     { lastStatus := HealthStatus.inactive, lastChecked := 0 }
     (some "stopped") 10 "stopped" (by decide)⟩

/-! ## Theorems about the presence manager -/

theorem checkExpirations_snd (leases : List (String × PresenceLease))
    (now ttl hard : Int) :
    (checkExpirations leases now ttl hard).2
      = leases.filterMap (fun p =>
          if (sweepLease now ttl hard p.2).2 then some p.1 else none) := rfl

theorem sweepLease_expired_iff (now ttl hard : Int) (l : PresenceLease) :
    (sweepLease now ttl hard l).2 = true ↔
      (ttl ≤ now - l.lastSeen ∧ l.markedOffline = false) := by
  unfold sweepLease
  by_cases h1 : ttl ≤ now - l.lastSeen
  · rw [if_pos h1]
    by_cases h2 : l.markedOffline = false
    · rw [if_pos h2]; simp [h1, h2]
    · rw [if_neg h2]
      split <;> simp [h1, h2]
  · rw [if_neg h1]; simp [h1]

theorem expired_mem_keys (leases : List (String × PresenceLease))
    (now ttl hard : Int) (x : String)
    (hx : x ∈ (checkExpirations leases now ttl hard).2) :
    x ∈ leases.map Prod.fst := by
  rw [checkExpirations_snd] at hx
  obtain ⟨p, hp, hpx⟩ := List.mem_filterMap.1 hx
  split at hpx
  · exact List.mem_map.2 ⟨p, hp, Option.some.inj hpx⟩
  · exact absurd hpx (by simp)

theorem expired_count (leases : List (String × PresenceLease))
    (now ttl hard : Int) (nodeId : String) (l : PresenceLease)
    (hnodup : (leases.map Prod.fst).Nodup)
    (hmem : (nodeId, l) ∈ leases) :
    (checkExpirations leases now ttl hard).2.count nodeId
      = if ttl ≤ now - l.lastSeen ∧ l.markedOffline = false then 1 else 0 := by
  induction leases with
  | nil => simp at hmem
  | cons p rest ih =>
      obtain ⟨k, pl⟩ := p
      rw [List.map_cons, List.nodup_cons] at hnodup
      rcases List.mem_cons.1 hmem with heq | hmem2
      · obtain ⟨rfl, rfl⟩ : nodeId = k ∧ l = pl := by
          rw [Prod.mk.injEq] at heq; exact heq
        have hzero : ((checkExpirations rest now ttl hard).2).count nodeId = 0 :=
          List.count_eq_zero.2 (fun hin =>
            hnodup.1 (expired_mem_keys rest now ttl hard nodeId hin))
        rw [checkExpirations_snd] at hzero
        by_cases hs : (sweepLease now ttl hard l).2 = true
        · rw [if_pos ((sweepLease_expired_iff now ttl hard l).1 hs),
              checkExpirations_snd, List.filterMap_cons, if_pos hs]
          simp [List.count_cons_self, hzero]
        · rw [if_neg (fun hc => hs ((sweepLease_expired_iff now ttl hard l).2 hc)),
              checkExpirations_snd, List.filterMap_cons, if_neg hs]
          simpa using hzero
      · have hkey : nodeId ∈ rest.map Prod.fst :=
          List.mem_map.2 ⟨(nodeId, l), hmem2, rfl⟩
        have hne : k ≠ nodeId := fun h => hnodup.1 (h ▸ hkey)
        have htail := ih hnodup.2 hmem2
        rw [checkExpirations_snd] at htail
        rw [checkExpirations_snd, List.filterMap_cons]
        by_cases hs : (sweepLease now ttl hard pl).2 = true
        · rw [if_pos hs]
          simp only [List.count_cons_of_ne (Ne.symm hne)]
          simpa using htail
        · rw [if_neg hs]
          simpa using htail

theorem lookupLease_map_touch (leases : List (String × PresenceLease))
    (nodeId : String) (seenAt : Int) :
    lookupLease (leases.map (fun p =>
        if p.1 = nodeId then (p.1, { p.2 with lastSeen := seenAt, markedOffline := false })
        else p)) nodeId
      = (lookupLease leases nodeId).map
          (fun l => { l with lastSeen := seenAt, markedOffline := false }) := by
  induction leases with
  | nil => rfl
  | cons p rest ih =>
      by_cases h : p.1 = nodeId
      · simp [lookupLease, List.find?_cons, h]
      · simp only [lookupLease, List.map_cons] at *
        rw [if_neg h, List.find?_cons_of_neg, List.find?_cons_of_neg]
        · exact ih
        · simp [h]
        · simp [h]

theorem lookupLease_touch (leases : List (String × PresenceLease))
    (nodeId : String) (seenAt : Int) :
    (lookupLease (Touch leases nodeId seenAt) nodeId).map
        (fun l2 => (l2.markedOffline, l2.lastSeen)) = some (false, seenAt) := by
  unfold Touch
  by_cases h : leases.any (fun p => p.1 = nodeId) = true
  · rw [if_pos h, lookupLease_map_touch]
    obtain ⟨x, hx, hpx⟩ := List.any_eq_true.1 h
    have hsome : ∃ l2, lookupLease leases nodeId = some l2 := by
      unfold lookupLease
      cases hf : leases.find? (fun p => decide (p.1 = nodeId)) with
      | none => exact absurd hpx (List.find?_eq_none.1 hf x hx)
      | some q => exact ⟨q.2, rfl⟩
    obtain ⟨l2, hl2⟩ := hsome
    rw [hl2]
    rfl
  · rw [if_neg h]
    unfold lookupLease
    rw [List.find?_append]
    have hnone : leases.find? (fun p => decide (p.1 = nodeId)) = none :=
      List.find?_eq_none.2 (fun x hx hpx => h (List.any_eq_true.2 ⟨x, hx, hpx⟩))
    rw [hnone]
    simp

theorem sweepLease_marked_not_renotified (now ttl hard : Int) (l : PresenceLease)
    (hm : l.markedOffline = true) : (sweepLease now ttl hard l).2 = false := by
  unfold sweepLease
  split
  · split
    · next h => rw [hm] at h; exact absurd h (by simp)
    · split
      · rfl
      · rfl
  · rfl

theorem sweepLease_marked_shape (now ttl hard : Int) (l : PresenceLease)
    (hm : l.markedOffline = true) :
    (sweepLease now ttl hard l).1 = none ∨ (sweepLease now ttl hard l).1 = some l := by
  unfold sweepLease
  split
  · split
    · next h => rw [hm] at h; exact absurd h (by simp)
    · split
      · exact Or.inl rfl
      · exact Or.inr rfl
  · exact Or.inr rfl

/-- C4: presence lease lifecycle. A touch stores the lease with
`markedOffline = false` and `lastSeen = seenAt` (creating it if absent).
A lease untouched for at least `heartbeatTTL` and not yet marked is
soft-expired by the sweep: it is stored back with `markedOffline = true`
and `lastExpired = now`, and the sweep reports its node id exactly once —
one `markInactive` status-manager update. A sweep over an
already-marked lease never reports it again and never resets the mark
(it either deletes the lease or leaves it unchanged); only a touch
resets `markedOffline`. -/
theorem presence_lease_lifecycle
    (leases : List (String × PresenceLease)) (nodeId : String)
    (seenAt now now2 ttl hard : Int) (l : PresenceLease)
    (hnodup : (leases.map Prod.fst).Nodup)
    (hmem : (nodeId, l) ∈ leases)
    (hfresh : l.markedOffline = false)
    (hexp : ttl ≤ now - l.lastSeen) :
    (lookupLease (Touch leases nodeId seenAt) nodeId).map
        (fun l2 => (l2.markedOffline, l2.lastSeen)) = some (false, seenAt) ∧
    sweepLease now ttl hard l
      = (some { l with markedOffline := true, lastExpired := now }, true) ∧
    (checkExpirations leases now ttl hard).2.count nodeId = 1 ∧
    (sweepLease now2 ttl hard { l with markedOffline := true, lastExpired := now }).2
      = false ∧
    ((sweepLease now2 ttl hard { l with markedOffline := true, lastExpired := now }).1
        = none ∨
     (sweepLease now2 ttl hard { l with markedOffline := true, lastExpired := now }).1
        = some { l with markedOffline := true, lastExpired := now }) := by
  refine ⟨lookupLease_touch leases nodeId seenAt, ?_, ?_, ?_, ?_⟩
  · unfold sweepLease
    rw [if_pos hexp, if_pos hfresh]
  · rw [expired_count leases now ttl hard nodeId l hnodup hmem,
        if_pos ⟨hexp, hfresh⟩]
  · exact sweepLease_marked_not_renotified now2 ttl hard _ rfl
  · exact sweepLease_marked_shape now2 ttl hard _ rfl

theorem presence_lease_lifecycle_witness :
    (lookupLease (Touch [("node-1", lease0)] "node-1" 5000) "node-1").map
        (fun l2 => (l2.markedOffline, l2.lastSeen)) = some (false, 5000) ∧
    sweepLease 15000 15000 300000 lease0
      = (some { lease0 with markedOffline := true, lastExpired := 15000 }, true) ∧
    (checkExpirations [("node-1", lease0)] 15000 15000 300000).2.count "node-1" = 1 ∧
    (sweepLease 16000 15000 300000
        { lease0 with markedOffline := true, lastExpired := 15000 }).2 = false ∧
    ((sweepLease 16000 15000 300000
        { lease0 with markedOffline := true, lastExpired := 15000 }).1 = none ∨
     (sweepLease 16000 15000 300000
        { lease0 with markedOffline := true, lastExpired := 15000 }).1
       = some { lease0 with markedOffline := true, lastExpired := 15000 }) :=
  presence_lease_lifecycle [("node-1", lease0)] "node-1" 5000 15000 16000 15000 300000
    lease0 (by decide) (by decide) rfl (by decide)

/-- C6 counterexample: with `heartbeatTTL = 15 s` and `hardEvictTTL =
5 min`, a lease last touched at t = 0 and soft-expired at t = 15 s is
removed by the sweep at t = 300 s, although only 285 s — less than
`hardEvictTTL` — have elapsed past its soft-expiry: the code measures
the hard-evict window from `lastSeen`, not from the soft-expiry time. -/
theorem presence_hard_evict_counterexample :
    checkExpirations
        [("node-1", { lastSeen := 0, lastExpired := 15000, markedOffline := true })]
        300000 15000 300000 = ([], []) ∧
    (300000 : Int) - 15000 < 300000 :=
  ⟨rfl, by decide⟩

/-- C6 amended: the sweep removes a lease exactly when it is already
soft-expired (`markedOffline = true`), the hard-evict TTL is positive,
and at least `hardEvictTTL` has elapsed since the lease's last touch
(`lastSeen`) — not since its soft-expiry; removal also requires the
heartbeat TTL to have elapsed, so it never happens on the sweep that
soft-expires the lease itself. -/
theorem sweepLease_hard_evict_spec (now ttl hard : Int) (l : PresenceLease) :
    (sweepLease now ttl hard l).1 = none ↔
      (l.markedOffline = true ∧ ttl ≤ now - l.lastSeen ∧
       0 < hard ∧ hard ≤ now - l.lastSeen) := by
  unfold sweepLease
  by_cases h1 : ttl ≤ now - l.lastSeen
  · rw [if_pos h1]
    by_cases h2 : l.markedOffline = false
    · rw [if_pos h2]
      simp [h2]
    · rw [if_neg h2]
      have h2t : l.markedOffline = true := by
        cases hml : l.markedOffline
        · exact absurd hml h2
        · rfl
      by_cases h3 : 0 < hard ∧ hard ≤ now - l.lastSeen
      · rw [if_pos h3]
        simp [h2t, h1, h3]
      · rw [if_neg h3]
        simp [h2t, h1, h3]
  · rw [if_neg h1]
    simp [h1]

/-! ## Theorems about the dashboard median -/

/-- C9: `computeMedian` returns the statistical median via a full sort:
it returns 0 on an empty list, and for a non-empty list the value it
returns is the middle element (odd count) or the arithmetic mean of the
two middle elements (even count) of a sorted ascending permutation of
the samples — namely `values.mergeSort`. -/
theorem computeMedian_sorted_middle (values : List Int) (hne : values ≠ []) :
    computeMedian [] = 0 ∧
    (values.mergeSort).Perm values ∧
    List.Sorted (· ≤ ·) values.mergeSort ∧
    computeMedian values
      = (if values.length % 2 = 1 then
           ((values.mergeSort.getD (values.length / 2) 0 : Int) : Rat)
         else (((values.mergeSort.getD (values.length / 2 - 1) 0 : Int) : Rat)
               + ((values.mergeSort.getD (values.length / 2) 0 : Int) : Rat)) / 2) := by
  refine ⟨rfl, List.mergeSort_perm values _, List.sorted_mergeSort' values, ?_⟩
  unfold computeMedian
  rw [if_neg (by simpa [List.length_eq_zero] using hne)]

theorem computeMedian_sorted_middle_witness :
    ([3, 1, 2] : List Int) ≠ [] ∧
    computeMedian [3, 1, 2]
      = (if ([3, 1, 2] : List Int).length % 2 = 1 then
           ((([3, 1, 2] : List Int).mergeSort.getD (([3, 1, 2] : List Int).length / 2) 0 : Int) : Rat)
         else (((([3, 1, 2] : List Int).mergeSort.getD (([3, 1, 2] : List Int).length / 2 - 1) 0 : Int) : Rat)
               + ((([3, 1, 2] : List Int).mergeSort.getD (([3, 1, 2] : List Int).length / 2) 0 : Int) : Rat)) / 2) :=
  ⟨by decide, (computeMedian_sorted_middle [3, 1, 2] (by decide)).2.2.2⟩
